import Mathlib

/-!
Verification of the Imeon Energy integration (custom_components/imeon_energy_api).

The development shallowly embeds the data-processing core of the integration:

* `normalize_payload` — `ImeonEnergyCoordinator._normalize_payload` (coordinator.py),
* `transform_payload` / `transform_data_no_scan` — `ImeonEnergyCoordinator._transform_data`,
* `process_scan_history` — `ImeonEnergyCoordinator._process_scan_history`,
* `native_value_tick` — `ImeonEnergySensor.native_value` (sensor.py),
* `get_data_instant` — `ImeonHttpClient.get_data_instant` (client.py).

Python floats are modelled by `ℚ` (every arithmetic step exercised by the
theorems below is exact in binary64, so no rounding gap arises), Python JSON
values by the inductive type `JVal`, and Python dicts by association lists
looked up at their first occurrence (real dicts have unique keys, and all
operations below consistently read the first binding).
-/

/-- JSON-like Python value as handled by the coordinator.  A Python string is
abstracted by the three observations the embedded code makes of it: whether it
is empty (its truthiness), the result of `json.loads` on it (`none` when the
parse raises), and the result of `float()` on it (`none` when that raises).
Every concrete Python string determines exactly one such abstract value. -/
inductive JVal where
  | null : JVal
  | bool (b : Bool) : JVal
  | num (q : ℚ) : JVal
  | str (isEmpty : Bool) (parsed : Option JVal) (asFloat : Option ℚ) : JVal
  | arr (items : List JVal) : JVal
  | obj (entries : List (String × JVal)) : JVal

/-- Python truthiness (`bool(v)`) for the values of `JVal`. -/
def pyTruthy : JVal → Bool
  | .null => false
  | .bool b => b
  | .num q => q != 0
  | .str isEmpty _ _ => !isEmpty
  | .arr items => !items.isEmpty
  | .obj entries => !entries.isEmpty

/-- Python dict lookup `d[k]` as an option: dict keys are unique, and every
operation below reads the first binding of the association list. -/
def dictLookup {α : Type} : List (String × α) → String → Option α
  | [], _ => none
  | (k, v) :: rest, key => if key = k then some v else dictLookup rest key

/-- Python `d.get(k)`: `none` both when the key is absent and when the stored
value is JSON `null` (Python `None`). -/
def pyGet (d : List (String × JVal)) (k : String) : Option JVal :=
  match dictLookup d k with
  | some .null => none
  | o => o

/-- Python `k in d` (key containment, regardless of the stored value). -/
def containsKey (d : List (String × JVal)) (k : String) : Bool :=
  (dictLookup d k).isSome

/-- Step of `_normalize_payload`, coordinator.py lines 177-183: when the value
is a dict whose `result` entry is a string, `json.loads` it; a decoded
non-empty list is replaced by its first element; a parse failure leaves the
value unchanged (`except Exception: pass`). -/
def resultStep (d : JVal) : JVal :=
  match d with
  | .obj kvs =>
    match dictLookup kvs "result" with
    | some (.str _ parsed _) =>
      match parsed with
      | some (.arr (x :: _)) => x
      | some decoded => decoded
      | none => d
    | _ => d
  | _ => d

/-- Step of `_normalize_payload`, coordinator.py lines 185-186: a non-empty
list is replaced by its first element. -/
def listStep (d : JVal) : JVal :=
  match d with
  | .arr (x :: _) => x
  | _ => d

/-- Helper for `keyStep`: the unwrapping applied to a `data`/`payload` value
that is a dict or a list (`unwrapped[0] if isinstance(unwrapped, list) and
unwrapped else unwrapped`); `none` when the value is neither. -/
def unwrapDictOrList (v : JVal) : Option JVal :=
  match v with
  | .obj kvs => some (.obj kvs)
  | .arr (x :: _) => some x
  | .arr [] => some (.arr [])
  | _ => none

/-- Step of `_normalize_payload`, coordinator.py lines 188-193: for the first
key among `data`, `payload` that is present with a dict or list value, unwrap
one level (taking the first element of a non-empty list) and stop. -/
def keyStep (d : JVal) : JVal :=
  match d with
  | .obj kvs =>
    match dictLookup kvs "data" with
    | some v =>
      match unwrapDictOrList v with
      | some u => u
      | none =>
        match dictLookup kvs "payload" with
        | some w =>
          match unwrapDictOrList w with
          | some u => u
          | none => d
        | none => d
    | none =>
      match dictLookup kvs "payload" with
      | some w =>
        match unwrapDictOrList w with
        | some u => u
        | none => d
      | none => d
  | _ => d

/-- Embedding of `ImeonEnergyCoordinator._normalize_payload` (coordinator.py
lines 173-195): apply the three unwrap steps and return the resulting dict,
or the empty dict when the result is not a dict. -/
def normalize_payload (raw : JVal) : List (String × JVal) :=
  match keyStep (listStep (resultStep raw)) with
  | .obj kvs => kvs
  | _ => []

/-- Field aliases from sensor_config.py lines 27-36. -/
def API_FIELD_GRID_POWER : String := "em_power"

/-- Alias `API_FIELD_BATTERY_CHARGING` (sensor_config.py line 31). -/
def API_FIELD_BATTERY_CHARGING : String := "ac_input_total_active_power"

/-- Alias `API_FIELD_BATTERY_DISCHARGING` (sensor_config.py line 32). -/
def API_FIELD_BATTERY_DISCHARGING : String := "ac_output_total_active_power"

/-- Alias `API_FIELD_BATTERY_SOC` (sensor_config.py line 35). -/
def API_FIELD_BATTERY_SOC : String := "battery_soc"

/-- Alias list `API_FIELD_PV_INPUTS` (sensor_config.py line 36). -/
def API_FIELD_PV_INPUTS : List String := ["pv_input_power1", "pv_input_power2", "pv_input_power3"]

/-- Python `float(v)`: `none` when the conversion raises (ValueError or
TypeError). `float(True) = 1.0`, `float(False) = 0.0`; containers and `None`
raise; a string converts according to its `asFloat` observation. -/
def pyFloat : JVal → Option ℚ
  | .num q => some q
  | .bool b => some (if b then 1 else 0)
  | .str _ _ asFloat => asFloat
  | _ => none

/-- Python `float(v or 0.0)` applied to an optional fetched value: a missing
or falsy value yields `0.0`; a truthy non-convertible value raises (`none`). -/
def pyFloatOr (v : Option JVal) : Option ℚ :=
  match v with
  | none => some 0
  | some j => if pyTruthy j then pyFloat j else some 0

/-- Embedding of `ImeonEnergyCoordinator._sum_pv_inputs` (coordinator.py lines
206-218): sum the convertible PV inputs, remembering whether any PV field was
present at all; conversion failures are swallowed field by field. -/
def sum_pv_inputs (payload : List (String × JVal)) : Option ℚ :=
  let r := API_FIELD_PV_INPUTS.foldl
    (fun (acc : ℚ × Bool) key =>
      match pyGet payload key with
      | none => acc
      | some v =>
        match pyFloat v with
        | some q => (acc.1 + q, true)
        | none => (acc.1, true))
    (0, false)
  if r.2 then some r.1 else none

/-- Embedding of `ImeonEnergyCoordinator._estimate_battery_power`
(coordinator.py lines 220-229): `battery_current × voltage`, preferring
`p_battery_voltage` over `battery_voltage` by truthiness; `none` when a field
is missing or a conversion raises. -/
def estimate_battery_power (payload : List (String × JVal)) : Option ℚ :=
  let current := pyGet payload "battery_current"
  let voltage :=
    match pyGet payload "p_battery_voltage" with
    | some v => if pyTruthy v then some v else pyGet payload "battery_voltage"
    | none => pyGet payload "battery_voltage"
  match current, voltage with
  | some c, some v =>
    match pyFloat c, pyFloat v with
    | some qc, some qv => some (qc * qv)
    | _, _ => none
  | _, _ => none

/-- The dict built by `_transform_data` (coordinator.py lines 146-169); its
keys are the fixed literals of the source, modelled as record fields. -/
structure MetricSet where
  grid_power : ℚ
  solar_power : ℚ
  battery_power : ℚ
  home_power : ℚ
  battery_soc : ℚ
  grid_energy_import : ℚ
  grid_energy_export : ℚ
  solar_energy : ℚ
  battery_energy_charged : ℚ
  battery_energy_discharged : ℚ
  grid_consumption_power : ℚ
  grid_return_power : ℚ
  battery_charging_power : ℚ
  battery_discharging_power : ℚ
deriving DecidableEq

/-- Embedding of the metric derivation of `ImeonEnergyCoordinator.
_transform_data` (coordinator.py lines 121-171) on a resolved payload dict
(either the latest scan entry or the merged normalized fallback payload).
Returns `none` when a Python `float()` conversion raises. -/
def transform_payload (payload : List (String × JVal)) : Option MetricSet := do
  let grid_power ← pyFloatOr (pyGet payload API_FIELD_GRID_POWER)
  let solar_power : ℚ := (sum_pv_inputs payload).getD 0
  let (battery_power, battery_charging, battery_discharging) ←
    if containsKey payload API_FIELD_BATTERY_CHARGING
        || containsKey payload API_FIELD_BATTERY_DISCHARGING then do
      let battery_charging ← pyFloatOr (pyGet payload API_FIELD_BATTERY_CHARGING)
      let battery_discharging ← pyFloatOr (pyGet payload API_FIELD_BATTERY_DISCHARGING)
      pure (battery_discharging - battery_charging, battery_charging, battery_discharging)
    else
      match estimate_battery_power payload with
      | some estimated =>
        pure (estimated, if estimated > 0 then estimated else 0,
          if estimated < 0 then |estimated| else 0)
      | none => pure ((0 : ℚ), (0 : ℚ), (0 : ℚ))
  let battery_soc ← pyFloatOr (pyGet payload API_FIELD_BATTERY_SOC)
  let home_power := grid_power + solar_power + battery_power
  pure
    { grid_power := grid_power
      solar_power := solar_power
      battery_power := battery_power
      home_power := home_power
      battery_soc := battery_soc
      grid_energy_import := 0
      grid_energy_export := 0
      solar_energy := 0
      battery_energy_charged := 0
      battery_energy_discharged := 0
      grid_consumption_power := if grid_power > 0 then grid_power else 0
      grid_return_power := if grid_power > 0 then 0 else |grid_power|
      battery_charging_power := battery_charging
      battery_discharging_power := battery_discharging }

/-- Python `{**a, **b}`: keys of `a` in order with values overridden by `b`,
followed by the keys of `b` not in `a`. -/
def pyMergeDict (a b : List (String × JVal)) : List (String × JVal) :=
  a.map (fun kv => (kv.1, (dictLookup b kv.1).getD kv.2))
    ++ b.filter (fun kv => (dictLookup a kv.1).isNone)

/-- Embedding of `ImeonEnergyCoordinator._transform_data` (coordinator.py
lines 107-171) in the no-scan-history case (`_get_latest_scan_entry()` is
`None`): the payload is the normalized `data` member (defaulting to the whole
raw dict) merged with the normalized `scan` member (defaulting to `{}`). -/
def transform_data_no_scan (raw_data : List (String × JVal)) : Option MetricSet :=
  let payload_data := normalize_payload ((dictLookup raw_data "data").getD (.obj raw_data))
  let payload_scan := normalize_payload ((dictLookup raw_data "scan").getD (.obj []))
  transform_payload (pyMergeDict payload_data payload_scan)

/-- Scan entry ingested by `_process_scan_history` (coordinator.py lines
240-282) in its integer-timestamp branch: `timestamp` is the value of the
entry's `timestamp` field (an `int`, so `timestamp_int = int(timestamp)` and
`entry["_timestamp"] = datetime.fromtimestamp(timestamp_int)` satisfy
`int(entry["_timestamp"].timestamp()) = timestamp_int`); `payload`
abstracts the remaining fields of the entry dict. -/
structure ScanEntry where
  timestamp : Int
  payload : Nat
deriving DecidableEq

/-- Mutable coordinator state touched by `_process_scan_history`
(coordinator.py lines 52-54): `_scan_history`, `_known_timestamps`,
`_last_processed_count`. -/
structure ScanState where
  scan_history : List ScanEntry
  known_timestamps : Finset Int
  last_processed_count : Nat
deriving DecidableEq

/-- Initial coordinator state (coordinator.py lines 52-54). -/
def initScanState : ScanState := ⟨[], ∅, 0⟩

/-- Descending order on scan entries used by the history sort
(coordinator.py line 297). -/
def tsGE (a b : ScanEntry) : Prop := b.timestamp ≤ a.timestamp

instance : DecidableRel tsGE :=
  fun a b => inferInstanceAs (Decidable (b.timestamp ≤ a.timestamp))

instance : IsTotal ScanEntry tsGE := ⟨fun a b => le_total b.timestamp a.timestamp⟩

instance : IsTrans ScanEntry tsGE := ⟨fun _ _ _ hab hbc => le_trans hbc hab⟩

/-- Python `list.sort(key=..., reverse=True)`: stable descending sort by
`_timestamp` (coordinator.py line 297). `List.insertionSort` with this
relation is stable exactly like CPython's sort. -/
def sortScanHistory (l : List ScanEntry) : List ScanEntry :=
  l.insertionSort tsGE

/-- Loop body of the dedup filter of `_process_scan_history` (coordinator.py
lines 274-282), acting on the pair of the updated `_known_timestamps` and the
`new_entries` accumulated so far.  An entry is skipped when its timestamp is
truthy (non-zero) and already known (line 275); a truthy timestamp is then
marked known (line 279); a zero timestamp skips both checks. -/
def scanDedupStep (acc : Finset Int × List ScanEntry) (e : ScanEntry) :
    Finset Int × List ScanEntry :=
  if e.timestamp ≠ 0 ∧ e.timestamp ∈ acc.1 then acc
  else if e.timestamp ≠ 0 then (insert e.timestamp acc.1, acc.2 ++ [e])
  else (acc.1, acc.2 ++ [e])

/-- The dedup loop of `_process_scan_history` as a fold of `scanDedupStep`
over the batch, starting from the current dedup set and an empty
`new_entries` list. -/
def scanDedup (known : Finset Int) (entries : List ScanEntry) :
    Finset Int × List ScanEntry :=
  entries.foldl scanDedupStep (known, [])

/-- Embedding of `ImeonEnergyCoordinator._process_scan_history`
(coordinator.py lines 231-297) for a scan payload `{"val": entries}` whose
entries carry integer timestamps: dedup-append the new entries, trim the
history to its last 100 elements discarding the trimmed timestamps from the
dedup set, then sort descending by timestamp. An empty batch returns early
(line 237). -/
def process_scan_history (s : ScanState) (entries : List ScanEntry) : ScanState :=
  if entries = [] then s
  else
    let d := scanDedup s.known_timestamps entries
    let hist := s.scan_history ++ d.2
    if 100 < hist.length then
      let removed := hist.take (hist.length - 100)
      { scan_history := sortScanHistory (hist.drop (hist.length - 100))
        known_timestamps := removed.foldl (fun kn e => kn.erase e.timestamp) d.1
        last_processed_count := s.last_processed_count - removed.length }
    else
      { scan_history := sortScanHistory hist
        known_timestamps := d.1
        last_processed_count := s.last_processed_count }

/-- Per-sensor integrator state of `ImeonEnergySensor` (sensor.py lines
148-150): `_last_update` (as a Unix-seconds instant), `_last_power`, and
`_accumulated_energy`. -/
structure IntegratorState where
  last_update : Option ℚ
  last_power : ℚ
  accumulated_energy : ℚ
deriving DecidableEq

/-- The `energy_mapping` dict of `ImeonEnergySensor.native_value` (sensor.py
lines 176-182). -/
def energyMapping : List (String × String) :=
  [("grid_consumption", "grid_energy_import"),
   ("grid_return", "grid_energy_export"),
   ("solar_production", "solar_energy"),
   ("battery_charging", "battery_energy_charged"),
   ("battery_discharging", "battery_energy_discharged")]

/-- Python `round(x, 3)` on exact rationals: round half to even at the third
decimal. -/
def pyRound3 (q : ℚ) : ℚ :=
  let x := q * 1000
  let f : Int := Int.floor x
  let r := x - f
  let n : Int :=
    if r < 1 / 2 then f
    else if 1 / 2 < r then f + 1
    else if f % 2 = 0 then f else f + 1
  (n : ℚ) / 1000

/-- Integration path of `ImeonEnergySensor.native_value` (sensor.py lines
189-209) as a state transition: read the power field (default `0.0`), and when
a previous tick exists add `(power/1000) × Δhours` to the accumulated energy
only if that increment is positive; always record `now` and the power.  The
reported value is the accumulated energy rounded to 3 decimals. -/
def integrate_step (power_key : String) (s : IntegratorState)
    (data : List (String × ℚ)) (now : ℚ) : Option ℚ × IntegratorState :=
  let power := (dictLookup data power_key).getD 0
  match s.last_update with
  | some lu =>
    let time_diff := (now - lu) / 3600
    let energy_increment := (power / 1000) * time_diff
    let acc :=
      if 0 < energy_increment then s.accumulated_energy + energy_increment
      else s.accumulated_energy
    (some (pyRound3 acc), ⟨some now, power, acc⟩)
  | none => (some (pyRound3 s.accumulated_energy), ⟨some now, power, s.accumulated_energy⟩)

/-- Branch selection of `native_value` (sensor.py lines 171-191): report a
positive directly-reported energy value without integrating, otherwise run
`integrate_step` above. -/
def native_value_tick (sensor_id power_key : String) (s : IntegratorState)
    (data : List (String × ℚ)) (now : ℚ) : Option ℚ × IntegratorState :=
  if data = [] then (none, s)
  else
    match dictLookup energyMapping sensor_id with
    | some energy_key =>
      match dictLookup data energy_key with
      | some v => if 0 < v then (some v, s) else integrate_step power_key s data now
      | none => integrate_step power_key s data now
    | none => integrate_step power_key s data now

/-- Endpoint kinds accepted by `get_data_instant` (client.py line 70). -/
inductive InfoType where
  | data : InfoType
  | scan : InfoType
  | status : InfoType
deriving DecidableEq

/-- HTTP response as observed by the client: status code, whether the
`Content-Type` header contains `application/json`, and the decoded JSON body
(meaningful only when `jsonCtype` holds). -/
structure HttpResp where
  status : Nat
  jsonCtype : Bool
  body : JVal

/-- Requests issued by one top-level `get_data_instant` call, in order. -/
inductive ReqKind where
  | instantGet (it : InfoType) : ReqKind
  | loginPost : ReqKind
  | fallbackGet : ReqKind
deriving DecidableEq

/-- Embedding of `ImeonHttpClient.login` (client.py lines 35-66) as consumed
by the retry path: POST `/login`, raising (`error`) on a non-200 status or a
non-JSON content type.  `w` maps the index of each HTTP request issued during
the call to the device's response; the returned `Nat` is the next index. -/
def login_request (w : Nat → HttpResp) (n : Nat) : Except Unit JVal × Nat :=
  let r := w n
  (if r.status ≠ 200 then .error ()
   else if !r.jsonCtype then .error ()
   else .ok r.body, n + 1)

/-- Embedding of `ImeonHttpClient._fetch_fallback` (client.py lines 159-166):
one GET with no relogin; raises only on a non-JSON content type (the status
code is not checked). -/
def fetch_fallback (w : Nat → HttpResp) (n : Nat) : Except Unit JVal × Nat :=
  let r := w n
  (if r.jsonCtype then .ok r.body else .error (), n + 1)

/-- Embedding of `ImeonHttpClient.get_data_instant` with `allow_retry=False`
(client.py lines 68-109 with the line-92 guard failing): on a non-JSON
200-response the relogin branch is skipped, and the `scan` fallback is tried
once if the requested kind is `data` (line 105); otherwise the call raises.
Returns the outcome, the requests issued, and the next request index. -/
def get_data_instant_noretry (w : Nat → HttpResp) (it : InfoType) (n : Nat) :
    Except Unit JVal × List ReqKind × Nat :=
  let r := w n
  if r.status ≠ 200 then (.error (), [.instantGet it], n + 1)
  else if r.jsonCtype then (.ok r.body, [.instantGet it], n + 1)
  else if it = .data then
    let fb := fetch_fallback w (n + 1)
    (fb.1, [.instantGet it, .fallbackGet], fb.2)
  else (.error (), [.instantGet it], n + 1)

/-- Embedding of a top-level `ImeonHttpClient.get_data_instant` call
(client.py lines 68-109, `allow_retry=True`).  `creds` tells whether both
stored credentials are truthy (line 92).  On a non-JSON 200-response with
credentials: login once (a login failure propagates), then retry the same
endpoint once with `allow_retry=False`; a `ValueError` from the retry is
re-raised, because the line-100 guard `allow_retry is False` is never true in
this frame.  Without credentials, fall back once for the `data` kind. -/
def get_data_instant (w : Nat → HttpResp) (creds : Bool) (it : InfoType) (n : Nat) :
    Except Unit JVal × List ReqKind × Nat :=
  let r := w n
  if r.status ≠ 200 then (.error (), [.instantGet it], n + 1)
  else if r.jsonCtype then (.ok r.body, [.instantGet it], n + 1)
  else if creds then
    match login_request w (n + 1) with
    | (.error _, n2) => (.error (), [.instantGet it, .loginPost], n2)
    | (.ok _, n2) =>
      let inner := get_data_instant_noretry w it n2
      (inner.1, .instantGet it :: .loginPost :: inner.2.1, inner.2.2)
  else if it = .data then
    let fb := fetch_fallback w (n + 1)
    (fb.1, [.instantGet it, .fallbackGet], fb.2)
  else (.error (), [.instantGet it], n + 1)

/-- Normalized form of the Section-8 example payload of the spec
(`{"ac_input_total_active_power": 500, "ac_output_total_active_power": 300,
"pv_input_power1": 200, "pv_input_power2": 100, "battery_soc": 80}`). -/
def exampleInstantPayload : List (String × JVal) :=
  [("ac_input_total_active_power", .num 500), ("ac_output_total_active_power", .num 300),
   ("pv_input_power1", .num 200), ("pv_input_power2", .num 100), ("battery_soc", .num 80)]

/-- C1, counterexample.  On the spec's example payload the claimed metric set
(`grid_power = 500, home_power = 300, battery_power = 0,
grid_consumption_power = 500`) is not what `_transform_data` produces:
`em_power` is the grid-power field, and the two `ac_*_total_active_power`
fields are the battery charge/discharge pair, so `grid_power = 0` and
`battery_power = -200`. -/
theorem c1_counterexample :
    ¬ (∀ m, transform_data_no_scan exampleInstantPayload = some m →
      m.grid_power = 500 ∧ m.home_power = 300 ∧ m.solar_power = 300 ∧
      m.battery_soc = 80 ∧ m.battery_power = 0 ∧
      m.grid_consumption_power = 500 ∧ m.grid_return_power = 0) := by
  intro h
  have hm := h
    { grid_power := 0, solar_power := 300, battery_power := -200, home_power := 100,
      battery_soc := 80, grid_energy_import := 0, grid_energy_export := 0, solar_energy := 0,
      battery_energy_charged := 0, battery_energy_discharged := 0,
      grid_consumption_power := 0, grid_return_power := 0,
      battery_charging_power := 500, battery_discharging_power := 300 }
    (by
      simp [transform_data_no_scan, transform_payload, normalize_payload, resultStep, listStep,
        keyStep, pyMergeDict, pyGet, pyFloatOr, pyFloat, pyTruthy, sum_pv_inputs,
        estimate_battery_power, containsKey, dictLookup, exampleInstantPayload,
        API_FIELD_GRID_POWER, API_FIELD_BATTERY_CHARGING, API_FIELD_BATTERY_DISCHARGING,
        API_FIELD_BATTERY_SOC, API_FIELD_PV_INPUTS]
      norm_num)
  norm_num at hm

/-- C1, amended.  The metric set `_transform_data` derives from the spec's
example payload (empty scan history): `grid_power = 0` (no `em_power` field),
`solar_power = 300`, `battery_power = 300 - 500 = -200` (the `ac_*` fields
are the battery charging/discharging pair), `home_power = 100`,
`battery_soc = 80`, both grid split fields `0`, and the raw battery split
`500`/`300`. -/
theorem c1_transform_values :
    transform_data_no_scan exampleInstantPayload = some
      { grid_power := 0, solar_power := 300, battery_power := -200, home_power := 100,
        battery_soc := 80, grid_energy_import := 0, grid_energy_export := 0, solar_energy := 0,
        battery_energy_charged := 0, battery_energy_discharged := 0,
        grid_consumption_power := 0, grid_return_power := 0,
        battery_charging_power := 500, battery_discharging_power := 300 } := by
  simp [transform_data_no_scan, transform_payload, normalize_payload, resultStep, listStep,
    keyStep, pyMergeDict, pyGet, pyFloatOr, pyFloat, pyTruthy, sum_pv_inputs,
    estimate_battery_power, containsKey, dictLookup, exampleInstantPayload,
    API_FIELD_GRID_POWER, API_FIELD_BATTERY_CHARGING, API_FIELD_BATTERY_DISCHARGING,
    API_FIELD_BATTERY_SOC, API_FIELD_PV_INPUTS]
  norm_num

/-- C4, counterexample.  `_normalize_payload` has no `val` unwrap step:
`normalize({"val": [{"a": 1}]})` returns the wrapper mapping itself, not
`{"a": 1}`. -/
theorem c4_counterexample :
    normalize_payload (.obj [("val", .arr [.obj [("a", .num 1)]])])
        = [("val", .arr [.obj [("a", .num 1)]])]
    ∧ normalize_payload (.obj [("val", .arr [.obj [("a", .num 1)]])])
        ≠ [("a", .num 1)] := by
  refine ⟨rfl, ?_⟩
  show [("val", JVal.arr [.obj [("a", .num 1)]])] ≠ [("a", JVal.num 1)]
  simp

/-- C4, amended.  The unwrap keys of `_normalize_payload` are only `data` and
`payload` (after the `result` decode): a mapping without a string-valued
`result` entry and without a dict-or-list-valued `data`/`payload` entry is
returned unchanged, even when it contains `val` mapped to a non-empty
sequence (the `val` list is consumed by `_process_scan_history` instead). -/
theorem c4_no_val_unwrap (kvs : List (String × JVal))
    (hres : ∀ e p f, dictLookup kvs "result" ≠ some (.str e p f))
    (hdata : ∀ v, dictLookup kvs "data" = some v → unwrapDictOrList v = none)
    (hpay : ∀ v, dictLookup kvs "payload" = some v → unwrapDictOrList v = none) :
    normalize_payload (.obj kvs) = kvs := by
  have h1 : resultStep (.obj kvs) = .obj kvs := by
    rcases hl : dictLookup kvs "result" with _ | v
    · simp [resultStep, hl]
    · rcases v with _ | b | q | ⟨e, p, f⟩ | xs | kv2 <;>
        first
        | exact absurd hl (hres _ _ _)
        | simp [resultStep, hl]
  have h2 : keyStep (.obj kvs) = .obj kvs := by
    rcases hd : dictLookup kvs "data" with _ | v
    · rcases hp : dictLookup kvs "payload" with _ | w
      · simp [keyStep, hd, hp]
      · simp [keyStep, hd, hp, hpay w hp]
    · rcases hp : dictLookup kvs "payload" with _ | w
      · simp [keyStep, hd, hp, hdata v hd]
      · simp [keyStep, hd, hp, hdata v hd, hpay w hp]
  simp [normalize_payload, h1, listStep, h2]

/-- C4, witness for the amended claim at the concrete `val` wrapper. -/
theorem c4_no_val_unwrap_witness :
    normalize_payload (.obj [("val", .arr [.obj [("a", .num 1)]])])
      = [("val", .arr [.obj [("a", .num 1)]])] :=
  c4_no_val_unwrap _
    (by intro e p f h; simp [dictLookup] at h)
    (by intro v h; simp [dictLookup] at h)
    (by intro v h; simp [dictLookup] at h)

/-- Payload whose `result` string decodes to a value that itself carries a
string-valued `result` entry (realized by the Python payload
`{"result": "{\"result\": \"{\\\"a\\\": 1}\"}"}`). -/
def nestedResultInner : JVal :=
  .obj [("result", .str false (some (.obj [("a", .num 1)])) none)]

/-- C5, counterexample.  `_normalize_payload` decodes the `result` string only
once: when the decoded value is itself a `result`-string wrapper, the inner
string is not decoded, so normalizing `{"result": s}` differs from
normalizing the decoded value of `s`. -/
theorem c5_counterexample :
    normalize_payload (.obj [("result", .str false (some nestedResultInner) none)])
      ≠ normalize_payload nestedResultInner := by
  show [("result", JVal.str false (some (.obj [("a", .num 1)])) none)] ≠ [("a", JVal.num 1)]
  simp

/-- Condition under which the single `result` decode of `_normalize_payload`
agrees with a full recursive normalization of the decoded value: the decoded
value must not itself be a mapping with a string-valued `result` entry, nor a
sequence whose first element is again a non-empty sequence. -/
def resultDecodeAgrees (j : JVal) : Bool :=
  match j with
  | .obj kvs =>
    match dictLookup kvs "result" with
    | some (.str _ _ _) => false
    | _ => true
  | .arr (x :: _) =>
    match x with
    | .arr (_ :: _) => false
    | _ => true
  | _ => true

/-- C5, amended.  For a payload `{"result": s}` whose string `s` decodes to
`j`, `normalize_payload` agrees with normalizing `j` directly whenever `j` is
not itself a `result`-string wrapper and not a doubly-nested sequence: the
decode step is applied only once, so those two shapes (and only those) break
the claimed equivalence. -/
theorem c5_result_decode (j : JVal) (e : Bool) (f : Option ℚ)
    (h : resultDecodeAgrees j = true) :
    normalize_payload (.obj [("result", .str e (some j) f)]) = normalize_payload j := by
  rcases j with _ | b | q | ⟨e2, p2, f2⟩ | xs | kvs
  · rfl
  · rfl
  · rfl
  · rfl
  · rcases xs with _ | ⟨x, t⟩
    · rfl
    · rcases x with _ | b2 | q2 | ⟨e3, p3, f3⟩ | ys | kvs2
      · rfl
      · rfl
      · rfl
      · rfl
      · rcases ys with _ | ⟨y, t2⟩
        · rfl
        · simp [resultDecodeAgrees] at h
      · rfl
  · have h1 : resultStep (.obj kvs) = .obj kvs := by
      rcases hl : dictLookup kvs "result" with _ | v
      · simp [resultStep, hl]
      · rcases v with _ | b2 | q2 | ⟨e3, p3, f3⟩ | ys | kvs2
        · simp [resultStep, hl]
        · simp [resultStep, hl]
        · simp [resultStep, hl]
        · simp [resultDecodeAgrees, hl] at h
        · simp [resultStep, hl]
        · simp [resultStep, hl]
    have hL : normalize_payload (.obj [("result", .str e (some (.obj kvs)) f)])
        = (match keyStep (.obj kvs) with | .obj kvs2 => kvs2 | _ => []) := by
      simp [normalize_payload, resultStep, dictLookup, listStep]
    rw [hL]
    simp [normalize_payload, h1, listStep]

/-- C5, witness for the amended claim: `{"result": s}` with `s` decoding to a
plain mapping normalizes exactly like the decoded mapping. -/
theorem c5_result_decode_witness :
    normalize_payload (.obj [("result", .str false (some (.obj [("a", .num 1)])) none)])
      = normalize_payload (.obj [("a", .num 1)]) :=
  c5_result_decode (.obj [("a", .num 1)]) false none (by decide)

/-- C9, confirmed.  `_normalize_payload` is total over the embedded JSON
values (it is a Lean function, so it never raises), and it returns exactly
the entries of the value reached after the three unwrap steps when that value
is a mapping and the empty mapping otherwise; moreover a `result` entry whose
string fails to parse (`parsed = none`) leaves the outer mapping unchanged,
which is then itself treated as the payload. -/
theorem c9_normalize_total :
    (∀ raw, (∃ kvs, keyStep (listStep (resultStep raw)) = .obj kvs
        ∧ normalize_payload raw = kvs)
      ∨ ((∀ kvs, keyStep (listStep (resultStep raw)) ≠ .obj kvs)
        ∧ normalize_payload raw = []))
    ∧ (∀ kvs isEmpty asFloat, dictLookup kvs "result" = some (.str isEmpty none asFloat) →
        resultStep (.obj kvs) = .obj kvs) := by
  constructor
  · intro raw
    rcases hk : keyStep (listStep (resultStep raw)) with _ | b | q | ⟨e, p, f⟩ | xs | kvs
    case obj => exact Or.inl ⟨kvs, rfl, by simp [normalize_payload, hk]⟩
    all_goals
      exact Or.inr ⟨by intro kvs0 hk0; exact JVal.noConfusion hk0,
        by simp [normalize_payload, hk]⟩
  · intro kvs isEmpty asFloat hl
    simp [resultStep, hl]

/-- C9, witness: a mapping with a malformed `result` string passes through
the decode step unchanged. -/
theorem c9_normalize_total_witness :
    resultStep (.obj [("result", .str false none none), ("x", .num 5)])
      = .obj [("result", .str false none none), ("x", .num 5)] :=
  c9_normalize_total.2 [("result", .str false none none), ("x", .num 5)] false none rfl

/-- Inversion of `transform_payload`: a successful derivation determines every
field of the produced `MetricSet` from the resolved grid power, SoC, and the
battery branch actually taken. -/
theorem transform_payload_inv (p : List (String × JVal)) (m : MetricSet)
    (h : transform_payload p = some m) :
    ∃ g soc bp chg dis,
      pyFloatOr (pyGet p API_FIELD_GRID_POWER) = some g ∧
      pyFloatOr (pyGet p API_FIELD_BATTERY_SOC) = some soc ∧
      (((containsKey p API_FIELD_BATTERY_CHARGING
          || containsKey p API_FIELD_BATTERY_DISCHARGING) = true ∧
          pyFloatOr (pyGet p API_FIELD_BATTERY_CHARGING) = some chg ∧
          pyFloatOr (pyGet p API_FIELD_BATTERY_DISCHARGING) = some dis ∧
          bp = dis - chg)
        ∨ ((containsKey p API_FIELD_BATTERY_CHARGING
            || containsKey p API_FIELD_BATTERY_DISCHARGING) = false ∧
           ((∃ est, estimate_battery_power p = some est ∧ bp = est ∧
              chg = (if est > 0 then est else 0) ∧ dis = (if est < 0 then |est| else 0))
            ∨ (estimate_battery_power p = none ∧ bp = 0 ∧ chg = 0 ∧ dis = 0)))) ∧
      m = { grid_power := g,
            solar_power := (sum_pv_inputs p).getD 0,
            battery_power := bp,
            home_power := g + (sum_pv_inputs p).getD 0 + bp,
            battery_soc := soc,
            grid_energy_import := 0, grid_energy_export := 0, solar_energy := 0,
            battery_energy_charged := 0, battery_energy_discharged := 0,
            grid_consumption_power := if g > 0 then g else 0,
            grid_return_power := if g > 0 then 0 else |g|,
            battery_charging_power := chg, battery_discharging_power := dis } := by
  unfold transform_payload at h
  rcases hg : pyFloatOr (pyGet p API_FIELD_GRID_POWER) with _ | g <;> rw [hg] at h
  · simp at h
  simp only [Option.bind_eq_bind, Option.pure_def, Option.some_bind] at h
  by_cases hc : (containsKey p API_FIELD_BATTERY_CHARGING
      || containsKey p API_FIELD_BATTERY_DISCHARGING) = true
  · rw [if_pos hc] at h
    rcases hchg : pyFloatOr (pyGet p API_FIELD_BATTERY_CHARGING) with _ | c <;>
      rw [hchg] at h
    · simp at h
    rcases hdis : pyFloatOr (pyGet p API_FIELD_BATTERY_DISCHARGING) with _ | d <;>
      rw [hdis] at h
    · simp at h
    rcases hsoc : pyFloatOr (pyGet p API_FIELD_BATTERY_SOC) with _ | soc <;>
      rw [hsoc] at h
    · simp at h
    simp only [Option.bind_eq_bind, Option.pure_def, Option.some_bind,
      Option.some.injEq] at h
    exact ⟨g, soc, d - c, c, d, rfl, rfl, Or.inl ⟨hc, rfl, rfl, rfl⟩, h.symm⟩
  · rw [if_neg hc] at h
    rcases he : estimate_battery_power p with _ | est <;> rw [he] at h
    · rcases hsoc : pyFloatOr (pyGet p API_FIELD_BATTERY_SOC) with _ | soc <;>
        rw [hsoc] at h
      · simp at h
      simp only [Option.bind_eq_bind, Option.pure_def, Option.some_bind,
        Option.some.injEq] at h
      exact ⟨g, soc, 0, 0, 0, rfl, rfl,
        Or.inr ⟨Bool.eq_false_iff.mpr hc ▸ rfl, Or.inr ⟨rfl, rfl, rfl, rfl⟩⟩, h.symm⟩
    · rcases hsoc : pyFloatOr (pyGet p API_FIELD_BATTERY_SOC) with _ | soc <;>
        rw [hsoc] at h
      · simp at h
      simp only [Option.bind_eq_bind, Option.pure_def, Option.some_bind,
        Option.some.injEq] at h
      exact ⟨g, soc, est, (if est > 0 then est else 0), (if est < 0 then |est| else 0),
        rfl, rfl,
        Or.inr ⟨Bool.eq_false_iff.mpr hc ▸ rfl, Or.inl ⟨est, rfl, rfl, rfl, rfl⟩⟩, h.symm⟩

/-- Payload exercising the current-times-voltage estimation branch with a
positive estimate (2 A × 25 V = 50 W). -/
def estimationPayload : List (String × JVal) :=
  [("battery_current", .num 2), ("p_battery_voltage", .num 25)]

/-- C3, counterexample.  In the estimation branch the battery split is the
reverse of the claimed identities: for the estimate `50` (positive, which the
source comment calls discharging) the code sets `battery_charging_power = 50`
and `battery_discharging_power = 0`, while the claim demands
`battery_discharging_power = max(battery_power, 0) = 50`. -/
theorem c3_counterexample :
    ¬ (∀ m, transform_payload estimationPayload = some m →
        m.battery_discharging_power = max m.battery_power 0
        ∧ m.battery_charging_power = max (-m.battery_power) 0) := by
  intro h
  have hm := h
    { grid_power := 0, solar_power := 0, battery_power := 50, home_power := 50,
      battery_soc := 0, grid_energy_import := 0, grid_energy_export := 0, solar_energy := 0,
      battery_energy_charged := 0, battery_energy_discharged := 0,
      grid_consumption_power := 0, grid_return_power := 0,
      battery_charging_power := 50, battery_discharging_power := 0 }
    (by
      simp [transform_payload, pyGet, pyFloatOr, pyFloat, pyTruthy, sum_pv_inputs,
        estimate_battery_power, containsKey, dictLookup, estimationPayload,
        API_FIELD_GRID_POWER, API_FIELD_BATTERY_CHARGING, API_FIELD_BATTERY_DISCHARGING,
        API_FIELD_BATTERY_SOC, API_FIELD_PV_INPUTS]
      norm_num)
  have h50 : max (50 : ℚ) 0 = 50 := by norm_num
  rw [h50] at hm
  norm_num at hm

/-- C3, amended.  The grid split always satisfies the claimed identities
`grid_consumption_power = max(grid_power, 0)` and `grid_return_power =
max(-grid_power, 0)`.  The battery split does not: in the estimation branch
(no `ac_*_total_active_power` field present) the two identities hold with the
roles swapped (`battery_charging_power = max(battery_power, 0)` and
`battery_discharging_power = max(-battery_power, 0)`, contradicting the
positive-means-discharging comment), and in the direct branch the split
fields are the raw payload values, related to `battery_power` only by
`battery_power = battery_discharging_power - battery_charging_power`. -/
theorem c3_sign_split (p : List (String × JVal)) (m : MetricSet)
    (h : transform_payload p = some m) :
    m.grid_consumption_power = max m.grid_power 0
    ∧ m.grid_return_power = max (-m.grid_power) 0
    ∧ (containsKey p API_FIELD_BATTERY_CHARGING = false →
        containsKey p API_FIELD_BATTERY_DISCHARGING = false →
        m.battery_charging_power = max m.battery_power 0
        ∧ m.battery_discharging_power = max (-m.battery_power) 0)
    ∧ ((containsKey p API_FIELD_BATTERY_CHARGING
        || containsKey p API_FIELD_BATTERY_DISCHARGING) = true →
        m.battery_power = m.battery_discharging_power - m.battery_charging_power) := by
  obtain ⟨g, soc, bp, chg, dis, hg, hsoc, hbranch, hm⟩ := transform_payload_inv p m h
  subst hm
  refine ⟨?_, ?_, ?_, ?_⟩
  · by_cases hgp : g > 0
    · simp only [if_pos hgp]
      exact (max_eq_left hgp.le).symm
    · simp only [if_neg hgp]
      exact (max_eq_right (le_of_not_lt hgp)).symm
  · by_cases hgp : g > 0
    · simp only [if_pos hgp]
      exact (max_eq_right (neg_nonpos.mpr hgp.le)).symm
    · simp only [if_neg hgp]
      rw [abs_of_nonpos (le_of_not_lt hgp)]
      exact (max_eq_left (neg_nonneg.mpr (le_of_not_lt hgp))).symm
  · intro hc hd
    rcases hbranch with ⟨hk, _⟩ | ⟨_, hest⟩
    · rw [hc, hd] at hk
      exact absurd hk (by simp)
    · rcases hest with ⟨est, _, hbp, hchg, hdis⟩ | ⟨_, hbp, hchg, hdis⟩
      · constructor
        · show chg = max bp 0
          rw [hchg, hbp]
          by_cases hp : est > 0
          · rw [if_pos hp]
            exact (max_eq_left hp.le).symm
          · rw [if_neg hp]
            exact (max_eq_right (le_of_not_lt hp)).symm
        · show dis = max (-bp) 0
          rw [hdis, hbp]
          by_cases hn : est < 0
          · rw [if_pos hn, abs_of_neg hn]
            exact (max_eq_left (neg_nonneg.mpr hn.le)).symm
          · rw [if_neg hn]
            exact (max_eq_right (neg_nonpos.mpr (le_of_not_lt hn))).symm
      · refine ⟨?_, ?_⟩
        · show chg = max bp 0
          rw [hchg, hbp]; simp
        · show dis = max (-bp) 0
          rw [hdis, hbp]; simp
  · intro hk
    rcases hbranch with ⟨_, _, _, hbp⟩ | ⟨hk2, _⟩
    · simpa using hbp
    · rw [hk] at hk2
      exact absurd hk2 (by simp)

/-- C3, witness for the amended claim: the grid split identity, instantiated
on the estimation payload. -/
theorem c3_sign_split_witness :
    MetricSet.grid_consumption_power
      { grid_power := 0, solar_power := 0, battery_power := 50, home_power := 50,
        battery_soc := 0, grid_energy_import := 0, grid_energy_export := 0, solar_energy := 0,
        battery_energy_charged := 0, battery_energy_discharged := 0,
        grid_consumption_power := 0, grid_return_power := 0,
        battery_charging_power := 50, battery_discharging_power := 0 }
      = max (MetricSet.grid_power
      { grid_power := 0, solar_power := 0, battery_power := 50, home_power := 50,
        battery_soc := 0, grid_energy_import := 0, grid_energy_export := 0, solar_energy := 0,
        battery_energy_charged := 0, battery_energy_discharged := 0,
        grid_consumption_power := 0, grid_return_power := 0,
        battery_charging_power := 50, battery_discharging_power := 0 }) 0 :=
  (c3_sign_split estimationPayload _
    (by
      simp [transform_payload, pyGet, pyFloatOr, pyFloat, pyTruthy, sum_pv_inputs,
        estimate_battery_power, containsKey, dictLookup, estimationPayload,
        API_FIELD_GRID_POWER, API_FIELD_BATTERY_CHARGING, API_FIELD_BATTERY_DISCHARGING,
        API_FIELD_BATTERY_SOC, API_FIELD_PV_INPUTS]
      norm_num)).1

/-- C10, confirmed.  Every metric set `_transform_data` produces satisfies
`home_power = grid_power + solar_power + battery_power`: the value is always
computed as this sum (coordinator.py line 144) and never read from a payload
field, including for payloads that do carry a `home_power` key. -/
theorem c10_home_power_sum (p : List (String × JVal)) (m : MetricSet)
    (h : transform_payload p = some m) :
    m.home_power = m.grid_power + m.solar_power + m.battery_power := by
  obtain ⟨g, soc, bp, chg, dis, hg, hsoc, hbranch, hm⟩ := transform_payload_inv p m h
  subst hm
  rfl

/-- C10, witness: a payload carrying its own `home_power` field still gets
the computed sum (`10`, not the payload's `77`). -/
theorem c10_home_power_sum_witness :
    transform_payload [("home_power", .num 77), ("em_power", .num 10)] = some
      { grid_power := 10, solar_power := 0, battery_power := 0, home_power := 10,
        battery_soc := 0, grid_energy_import := 0, grid_energy_export := 0, solar_energy := 0,
        battery_energy_charged := 0, battery_energy_discharged := 0,
        grid_consumption_power := 10, grid_return_power := 0,
        battery_charging_power := 0, battery_discharging_power := 0 }
    ∧ MetricSet.home_power
      { grid_power := 10, solar_power := 0, battery_power := 0, home_power := 10,
        battery_soc := 0, grid_energy_import := 0, grid_energy_export := 0, solar_energy := 0,
        battery_energy_charged := 0, battery_energy_discharged := 0,
        grid_consumption_power := 10, grid_return_power := 0,
        battery_charging_power := 0, battery_discharging_power := 0 }
      = 10 + 0 + 0 := by
  have hT : transform_payload [("home_power", .num 77), ("em_power", .num 10)] = some
      { grid_power := 10, solar_power := 0, battery_power := 0, home_power := 10,
        battery_soc := 0, grid_energy_import := 0, grid_energy_export := 0, solar_energy := 0,
        battery_energy_charged := 0, battery_energy_discharged := 0,
        grid_consumption_power := 10, grid_return_power := 0,
        battery_charging_power := 0, battery_discharging_power := 0 } := by
    simp [transform_payload, pyGet, pyFloatOr, pyFloat, pyTruthy, sum_pv_inputs,
      estimate_battery_power, containsKey, dictLookup,
      API_FIELD_GRID_POWER, API_FIELD_BATTERY_CHARGING, API_FIELD_BATTERY_DISCHARGING,
      API_FIELD_BATTERY_SOC, API_FIELD_PV_INPUTS]
  exact ⟨hT, c10_home_power_sum _ _ hT⟩

/-- When the coordinator data is non-empty and carries no positive
directly-reported energy value for the sensor, `native_value` takes the
integration path. -/
theorem tick_integrates (sensor_id power_key : String) (s : IntegratorState)
    (data : List (String × ℚ)) (now : ℚ) (hd : data ≠ [])
    (he : ∀ ek, dictLookup energyMapping sensor_id = some ek →
      ∀ v, dictLookup data ek = some v → ¬ 0 < v) :
    native_value_tick sensor_id power_key s data now = integrate_step power_key s data now := by
  unfold native_value_tick
  rw [if_neg hd]
  rcases hek : dictLookup energyMapping sensor_id with _ | ek
  · simp only [hek]
  · simp only [hek]
    rcases hv : dictLookup data ek with _ | v
    · simp only [hv]
    · simp only [hv, if_neg (he ek hek v hv)]

/-- C7, confirmed.  The accumulated energy of `ImeonEnergySensor` never
decreases under any tick (in particular under ticks with non-negative
instantaneous power, as only positive increments are accumulated), and for
two ticks exactly 3600 seconds apart reading a sustained power of 1000 W with
no positive directly-reported energy value, the second tick adds exactly
1 kWh to the accumulated energy. -/
theorem c7_integrator :
    (∀ sensor_id power_key s (data : List (String × ℚ)) (now : ℚ),
      s.accumulated_energy
        ≤ (native_value_tick sensor_id power_key s data now).2.accumulated_energy)
    ∧ (∀ sensor_id power_key s (data : List (String × ℚ)) (t : ℚ),
        data ≠ [] →
        (∀ ek, dictLookup energyMapping sensor_id = some ek →
          ∀ v, dictLookup data ek = some v → ¬ 0 < v) →
        dictLookup data power_key = some 1000 →
        (native_value_tick sensor_id power_key
            (native_value_tick sensor_id power_key s data t).2 data (t + 3600)).2.accumulated_energy
          = (native_value_tick sensor_id power_key s data t).2.accumulated_energy + 1) := by
  have hmono : ∀ power_key s (data : List (String × ℚ)) (now : ℚ),
      s.accumulated_energy ≤ (integrate_step power_key s data now).2.accumulated_energy := by
    intro pk s data now
    unfold integrate_step
    rcases s.last_update with _ | lu
    · exact le_refl _
    · simp only
      split
      · next hpos => linarith
      · exact le_refl _
  constructor
  · intro sid pk s data now
    unfold native_value_tick
    by_cases hd : data = []
    · simp [hd]
    · rw [if_neg hd]
      rcases hek : dictLookup energyMapping sid with _ | ek
      · simp only [hek]
        exact hmono pk s data now
      · simp only [hek]
        rcases hv : dictLookup data ek with _ | v
        · simp only [hv]
          exact hmono pk s data now
        · simp only [hv]
          by_cases hvp : 0 < v
          · rw [if_pos hvp]
          · rw [if_neg hvp]
            exact hmono pk s data now
  · intro sid pk s data t hd he hpk
    rw [tick_integrates sid pk s data t hd he,
      tick_integrates sid pk _ data (t + 3600) hd he]
    have h1 : (integrate_step pk s data t).2.last_update = some t := by
      unfold integrate_step
      rcases hl : s.last_update with _ | lu <;> simp only [hl]
    have h2 : (integrate_step pk (integrate_step pk s data t).2 data (t + 3600)).2.accumulated_energy
        = if 0 < (((dictLookup data pk).getD 0) / 1000) * ((t + 3600 - t) / 3600)
          then (integrate_step pk s data t).2.accumulated_energy
            + (((dictLookup data pk).getD 0) / 1000) * ((t + 3600 - t) / 3600)
          else (integrate_step pk s data t).2.accumulated_energy := by
      conv =>
        lhs
        rw [integrate_step]
      simp only [h1]
    rw [h2, hpk]
    simp only [Option.getD_some]
    have ht : ((1000 : ℚ) / 1000) * ((t + 3600 - t) / 3600) = 1 := by
      have hsub : t + 3600 - t = (3600 : ℚ) := by ring
      rw [hsub]
      norm_num
    rw [ht]
    norm_num

/-- C7, witness: starting from a fresh sensor, two ticks 3600 s apart at
1000 W (with the energy field reported as `0.0`, as `_transform_data` always
does) increase the accumulated energy by exactly 1 kWh. -/
theorem c7_integrator_witness :
    (native_value_tick "grid_consumption" "grid_consumption_power"
        (native_value_tick "grid_consumption" "grid_consumption_power"
          ⟨none, 0, 0⟩ [("grid_consumption_power", 1000), ("grid_energy_import", 0)] 0).2
        [("grid_consumption_power", 1000), ("grid_energy_import", 0)]
        (0 + 3600)).2.accumulated_energy
      = (native_value_tick "grid_consumption" "grid_consumption_power"
          ⟨none, 0, 0⟩ [("grid_consumption_power", 1000), ("grid_energy_import", 0)]
          0).2.accumulated_energy + 1 :=
  c7_integrator.2 "grid_consumption" "grid_consumption_power" ⟨none, 0, 0⟩
    [("grid_consumption_power", 1000), ("grid_energy_import", 0)] 0
    (by simp)
    (by
      intro ek hek v hv
      rw [show dictLookup energyMapping "grid_consumption" = some "grid_energy_import"
        from rfl] at hek
      have hek2 : ek = "grid_energy_import" := (Option.some.inj hek).symm
      subst hek2
      rw [show dictLookup [("grid_consumption_power", (1000 : ℚ)), ("grid_energy_import", 0)]
        "grid_energy_import" = some 0 from rfl] at hv
      have hv2 : v = 0 := (Option.some.inj hv).symm
      subst hv2
      norm_num)
    rfl

/-- Requests issued by one top-level `get_data_instant` call. -/
def instantActions (w : Nat → HttpResp) (creds : Bool) (it : InfoType) (n : Nat) :
    List ReqKind :=
  (get_data_instant w creds it n).2.1

/-- C8, confirmed.  One top-level `get_data_instant` call issues at most one
login request (the retried fetch runs with `allow_retry=False`, so it can
never log in again) and at most one fallback fetch; a fallback fetch happens
only for the primary `data` kind; and a 200-status non-JSON first response
with credentials cached triggers exactly one re-login attempt. -/
theorem c8_retry_bounds (w : Nat → HttpResp) (creds : Bool) (it : InfoType) (n : Nat) :
    (instantActions w creds it n).count .loginPost ≤ 1
    ∧ (instantActions w creds it n).count .fallbackGet ≤ 1
    ∧ (0 < (instantActions w creds it n).count .fallbackGet → it = .data)
    ∧ ((w n).status = 200 → (w n).jsonCtype = false → creds = true →
        (instantActions w creds it n).count .loginPost = 1) := by
  have hnr : ∀ m, (get_data_instant_noretry w it m).2.1 = [.instantGet it]
      ∨ (get_data_instant_noretry w it m).2.1 = [.instantGet it, .fallbackGet] ∧ it = .data := by
    intro m
    unfold get_data_instant_noretry
    by_cases h1 : (w m).status ≠ 200
    · rw [if_pos h1]; exact Or.inl rfl
    · rw [if_neg h1]
      by_cases h2 : (w m).jsonCtype = true
      · rw [if_pos h2]; exact Or.inl rfl
      · rw [if_neg h2]
        by_cases h3 : it = .data
        · rw [if_pos h3]; exact Or.inr ⟨rfl, h3⟩
        · rw [if_neg h3]; exact Or.inl rfl
  have hacts : (instantActions w creds it n = [.instantGet it]
        ∧ ((w n).status ≠ 200 ∨ (w n).jsonCtype = true ∨ creds = false))
      ∨ instantActions w creds it n = [.instantGet it, .loginPost]
      ∨ instantActions w creds it n = [.instantGet it, .loginPost, .instantGet it]
      ∨ (instantActions w creds it n
          = [.instantGet it, .loginPost, .instantGet it, .fallbackGet] ∧ it = .data)
      ∨ (instantActions w creds it n = [.instantGet it, .fallbackGet]
          ∧ it = .data ∧ creds = false) := by
    unfold instantActions get_data_instant
    by_cases h1 : (w n).status ≠ 200
    · rw [if_pos h1]; exact Or.inl ⟨rfl, Or.inl h1⟩
    · rw [if_neg h1]
      by_cases h2 : (w n).jsonCtype = true
      · rw [if_pos h2]; exact Or.inl ⟨rfl, Or.inr (Or.inl h2)⟩
      · rw [if_neg h2]
        by_cases h3 : creds = true
        · rw [if_pos h3]
          rcases hlg : login_request w (n + 1) with ⟨lr, n2⟩
          rcases lr with _ | j
          · exact Or.inr (Or.inl rfl)
          · rcases hnr n2 with hn | ⟨hn, hit⟩
            · simp [hn]
            · subst hit
              simp [hn]
        · rw [if_neg h3]
          by_cases h4 : it = .data
          · rw [if_pos h4]
            exact Or.inr (Or.inr (Or.inr (Or.inr
              ⟨rfl, h4, Bool.eq_false_iff.mpr h3⟩)))
          · rw [if_neg h4]
            exact Or.inl ⟨rfl, Or.inr (Or.inr (Bool.eq_false_iff.mpr h3))⟩
  rcases hacts with ⟨h, hcond⟩ | h | h | ⟨h, hit⟩ | ⟨h, hit, hcf⟩ <;> rw [h]
  · refine ⟨by simp, by simp, by intro hfb; simp at hfb, ?_⟩
    intro h200 hjson hcreds
    rcases hcond with hc | hc | hc
    · exact absurd h200 hc
    · rw [hjson] at hc; exact Bool.noConfusion hc
    · rw [hcreds] at hc; exact Bool.noConfusion hc
  · exact ⟨by simp, by simp, by intro hfb; simp at hfb, fun _ _ _ => by simp⟩
  · exact ⟨by simp, by simp, by intro hfb; simp at hfb, fun _ _ _ => by simp⟩
  · exact ⟨by simp, by simp, fun _ => hit, fun _ _ _ => by simp⟩
  · refine ⟨by simp, by simp, fun _ => hit, ?_⟩
    intro _ _ hcreds
    rw [hcreds] at hcf
    exact Bool.noConfusion hcf

/-- Timestamps of a list of scan entries. -/
def tsOf (l : List ScanEntry) : List Int :=
  l.map ScanEntry.timestamp

/-- No two entries share the same non-zero timestamp. -/
def NoDupNZ (l : List ScanEntry) : Prop :=
  ∀ t : Int, t ≠ 0 → (tsOf l).count t ≤ 1

/-- Every non-zero timestamp held in the history is in the dedup set. -/
def HistKnown (s : ScanState) : Prop :=
  ∀ e ∈ s.scan_history, e.timestamp ≠ 0 → e.timestamp ∈ s.known_timestamps

/-- Every timestamp in the dedup set is the timestamp of some history entry. -/
def KnownHist (s : ScanState) : Prop :=
  ∀ t ∈ s.known_timestamps, t ∈ tsOf s.scan_history

/-- Reachability invariant of the coordinator scan state. -/
def ScanInv (s : ScanState) : Prop :=
  s.scan_history.length ≤ 100 ∧ NoDupNZ s.scan_history ∧ HistKnown s ∧ KnownHist s ∧
    List.Sorted tsGE s.scan_history

theorem sortScanHistory_perm (l : List ScanEntry) : (sortScanHistory l).Perm l :=
  List.perm_insertionSort _ l

theorem sortScanHistory_sorted (l : List ScanEntry) :
    List.Sorted tsGE (sortScanHistory l) :=
  List.sorted_insertionSort tsGE l

theorem sortScanHistory_length (l : List ScanEntry) :
    (sortScanHistory l).length = l.length :=
  List.length_insertionSort _ l

theorem mem_foldl_erase (removed : List ScanEntry) :
    ∀ (kn : Finset Int) (t : Int),
      t ∈ removed.foldl (fun kn e => kn.erase e.timestamp) kn
        ↔ t ∈ kn ∧ ∀ e ∈ removed, e.timestamp ≠ t := by
  induction removed with
  | nil => intro kn t; simp
  | cons r rest ih =>
    intro kn t
    rw [List.foldl_cons, ih]
    constructor
    · rintro ⟨hkn, hrest⟩
      rw [Finset.mem_erase] at hkn
      exact ⟨hkn.2, by
        intro e he
        rcases List.mem_cons.mp he with he | he
        · rw [he]; exact fun h => hkn.1 h.symm
        · exact hrest e he⟩
    · rintro ⟨hkn, hall⟩
      refine ⟨Finset.mem_erase.mpr ⟨fun h => hall r (List.mem_cons_self r rest) h.symm, hkn⟩, ?_⟩
      exact fun e he => hall e (List.mem_cons_of_mem r he)

/-- Unfolding of `scanDedupStep` on an explicit pair. -/
theorem scanDedupStep_pair (kn : Finset Int) (acc : List ScanEntry) (e : ScanEntry) :
    scanDedupStep (kn, acc) e
      = if e.timestamp ≠ 0 ∧ e.timestamp ∈ kn then (kn, acc)
        else if e.timestamp ≠ 0 then (insert e.timestamp kn, acc ++ [e])
        else (kn, acc ++ [e]) := rfl

/-- Structure of the dedup fold: the accumulated list only grows, new entries
come from the batch, and the dedup set grows only by timestamps of new
entries. -/
theorem scanDedup_fold_structure (entries : List ScanEntry) :
    ∀ (kn : Finset Int) (acc : List ScanEntry),
      ∃ l, (entries.foldl scanDedupStep (kn, acc)).2 = acc ++ l
        ∧ (∀ e ∈ l, e ∈ entries)
        ∧ (∀ t ∈ (entries.foldl scanDedupStep (kn, acc)).1, t ∈ kn ∨ t ∈ tsOf l)
        ∧ kn ⊆ (entries.foldl scanDedupStep (kn, acc)).1 := by
  induction entries with
  | nil =>
    intro kn acc
    exact ⟨[], by simp, by simp, fun t ht => Or.inl ht, fun t ht => ht⟩
  | cons e rest ih =>
    intro kn acc
    rw [List.foldl_cons, scanDedupStep_pair]
    by_cases h1 : e.timestamp ≠ 0 ∧ e.timestamp ∈ kn
    · rw [if_pos h1]
      obtain ⟨l, hsnd, hmem, hfst, hsub⟩ := ih kn acc
      exact ⟨l, hsnd, fun x hx => List.mem_cons_of_mem e (hmem x hx),
        hfst, hsub⟩
    · rw [if_neg h1]
      by_cases h2 : e.timestamp ≠ 0
      · rw [if_pos h2]
        obtain ⟨l, hsnd, hmem, hfst, hsub⟩ := ih (insert e.timestamp kn) (acc ++ [e])
        refine ⟨e :: l, by rw [hsnd]; simp, ?_, ?_, ?_⟩
        · intro x hx
          rcases List.mem_cons.mp hx with hx | hx
          · rw [hx]; exact List.mem_cons_self e rest
          · exact List.mem_cons_of_mem e (hmem x hx)
        · intro t ht
          rcases hfst t ht with ht2 | ht2
          · rcases Finset.mem_insert.mp ht2 with ht3 | ht3
            · exact Or.inr (by rw [ht3]; exact List.mem_cons_self _ _)
            · exact Or.inl ht3
          · exact Or.inr (List.mem_cons_of_mem _ ht2)
        · exact fun t ht => hsub (Finset.mem_insert_of_mem ht)
      · rw [if_neg h2]
        obtain ⟨l, hsnd, hmem, hfst, hsub⟩ := ih kn (acc ++ [e])
        refine ⟨e :: l, by rw [hsnd]; simp, ?_, ?_, hsub⟩
        · intro x hx
          rcases List.mem_cons.mp hx with hx | hx
          · rw [hx]; exact List.mem_cons_self e rest
          · exact List.mem_cons_of_mem e (hmem x hx)
        · intro t ht
          rcases hfst t ht with ht2 | ht2
          · exact Or.inl ht2
          · exact Or.inr (List.mem_cons_of_mem _ ht2)

theorem tsOf_append (a b : List ScanEntry) : tsOf (a ++ b) = tsOf a ++ tsOf b :=
  List.map_append _ a b

theorem mem_tsOf {l : List ScanEntry} {t : Int} :
    t ∈ tsOf l ↔ ∃ e ∈ l, e.timestamp = t := by
  simp [tsOf]

/-- Invariant preservation along the dedup fold: non-zero-timestamp
uniqueness of history-plus-accumulated, and membership of every accumulated
non-zero timestamp in the dedup set. -/
theorem scanDedup_fold_inv (entries : List ScanEntry) :
    ∀ (kn : Finset Int) (acc hist : List ScanEntry),
      NoDupNZ (hist ++ acc) →
      (∀ e ∈ hist ++ acc, e.timestamp ≠ 0 → e.timestamp ∈ kn) →
      NoDupNZ (hist ++ (entries.foldl scanDedupStep (kn, acc)).2)
      ∧ (∀ e ∈ hist ++ (entries.foldl scanDedupStep (kn, acc)).2,
          e.timestamp ≠ 0 → e.timestamp ∈ (entries.foldl scanDedupStep (kn, acc)).1) := by
  induction entries with
  | nil => intro kn acc hist h1 h2; exact ⟨h1, h2⟩
  | cons e rest ih =>
    intro kn acc hist h1 h2
    rw [List.foldl_cons, scanDedupStep_pair]
    by_cases c1 : e.timestamp ≠ 0 ∧ e.timestamp ∈ kn
    · rw [if_pos c1]; exact ih kn acc hist h1 h2
    · rw [if_neg c1]
      by_cases c2 : e.timestamp ≠ 0
      · rw [if_pos c2]
        have hnotkn : e.timestamp ∉ kn := fun hk => c1 ⟨c2, hk⟩
        have hcount0 : (tsOf (hist ++ acc)).count e.timestamp = 0 := by
          rw [List.count_eq_zero]
          intro hmem
          obtain ⟨x, hx, hxt⟩ := mem_tsOf.mp hmem
          exact hnotkn (hxt ▸ h2 x hx (hxt.symm ▸ c2))
        apply ih (insert e.timestamp kn) (acc ++ [e]) hist
        · intro t ht
          rw [← List.append_assoc, tsOf_append, List.count_append]
          by_cases hte : t = e.timestamp
          · rw [hte, hcount0]
            simp [tsOf]
          · have : (tsOf [e]).count t = 0 := by
              rw [List.count_eq_zero]
              intro hmem
              obtain ⟨x, hx, hxt⟩ := mem_tsOf.mp hmem
              rcases List.mem_singleton.mp hx with rfl
              exact hte (hxt.symm)
            rw [this]
            have := h1 t ht
            omega
        · intro x hx hxt
          rw [← List.append_assoc] at hx
          rcases List.mem_append.mp hx with hx | hx
          · exact Finset.mem_insert_of_mem (h2 x hx hxt)
          · rcases List.mem_singleton.mp hx with rfl
            exact Finset.mem_insert_self _ _
      · rw [if_neg c2]
        push_neg at c2
        apply ih kn (acc ++ [e]) hist
        · intro t ht
          rw [← List.append_assoc, tsOf_append, List.count_append]
          have : (tsOf [e]).count t = 0 := by
            rw [List.count_eq_zero]
            intro hmem
            obtain ⟨x, hx, hxt⟩ := mem_tsOf.mp hmem
            rcases List.mem_singleton.mp hx with rfl
            exact ht (hxt ▸ c2)
          rw [this]
          have := h1 t ht
          omega
        · intro x hx hxt
          rw [← List.append_assoc] at hx
          rcases List.mem_append.mp hx with hx | hx
          · exact h2 x hx hxt
          · rcases List.mem_singleton.mp hx with rfl
            exact absurd c2 hxt

/-- On a batch of fresh, pairwise-distinct timestamps the dedup fold appends
every entry. -/
theorem scanDedup_fold_fresh (entries : List ScanEntry) :
    ∀ (kn : Finset Int) (acc : List ScanEntry),
      entries.Pairwise (fun a c => a.timestamp ≠ c.timestamp) →
      (∀ e ∈ entries, e.timestamp ∉ kn) →
      (entries.foldl scanDedupStep (kn, acc)).2 = acc ++ entries := by
  induction entries with
  | nil => intro kn acc _ _; simp
  | cons e rest ih =>
    intro kn acc hdist hfresh
    rw [List.foldl_cons, scanDedupStep_pair]
    have hnotkn : e.timestamp ∉ kn := hfresh e (List.mem_cons_self e rest)
    rw [if_neg (fun h : e.timestamp ≠ 0 ∧ e.timestamp ∈ kn => hnotkn h.2)]
    have hdrest := (List.pairwise_cons.mp hdist).2
    have hhead := (List.pairwise_cons.mp hdist).1
    by_cases c2 : e.timestamp ≠ 0
    · rw [if_pos c2]
      rw [ih (insert e.timestamp kn) (acc ++ [e]) hdrest ?fresh]
      · simp
      case fresh =>
        intro x hx hmem
        rcases Finset.mem_insert.mp hmem with hx2 | hx2
        · exact hhead x hx hx2.symm
        · exact hfresh x (List.mem_cons_of_mem e hx) hx2
    · rw [if_neg c2]
      rw [ih kn (acc ++ [e]) hdrest
        (fun x hx => hfresh x (List.mem_cons_of_mem e hx))]
      simp

/-- Dedup of a singleton batch whose timestamp is already known. -/
theorem scanDedup_single_known (kn : Finset Int) (e : ScanEntry)
    (he : e.timestamp ≠ 0) (hk : e.timestamp ∈ kn) :
    scanDedup kn [e] = (kn, []) := by
  unfold scanDedup
  rw [List.foldl_cons, scanDedupStep_pair, if_pos ⟨he, hk⟩]
  rfl

/-- Dedup of a singleton batch with a fresh non-zero timestamp. -/
theorem scanDedup_single_fresh (kn : Finset Int) (e : ScanEntry)
    (he : e.timestamp ≠ 0) (hk : e.timestamp ∉ kn) :
    scanDedup kn [e] = (insert e.timestamp kn, [e]) := by
  unfold scanDedup
  rw [List.foldl_cons, scanDedupStep_pair,
    if_neg (fun h : e.timestamp ≠ 0 ∧ e.timestamp ∈ kn => hk h.2), if_pos he]
  rfl

/-- Dedup of the duplicated batch `[e, e]` with a known non-zero timestamp:
both copies are dropped. -/
theorem scanDedup_pair_known (kn : Finset Int) (e : ScanEntry)
    (he : e.timestamp ≠ 0) (hk : e.timestamp ∈ kn) :
    scanDedup kn [e, e] = (kn, []) := by
  unfold scanDedup
  rw [List.foldl_cons, scanDedupStep_pair, if_pos ⟨he, hk⟩,
    List.foldl_cons, scanDedupStep_pair, if_pos ⟨he, hk⟩]
  rfl

/-- Dedup of the duplicated batch `[e, e]` with a fresh non-zero timestamp:
the first copy is appended, the duplicate is dropped. -/
theorem scanDedup_pair_fresh (kn : Finset Int) (e : ScanEntry)
    (he : e.timestamp ≠ 0) (hk : e.timestamp ∉ kn) :
    scanDedup kn [e, e] = (insert e.timestamp kn, [e]) := by
  unfold scanDedup
  rw [List.foldl_cons, scanDedupStep_pair,
    if_neg (fun h : e.timestamp ≠ 0 ∧ e.timestamp ∈ kn => hk h.2), if_pos he,
    List.foldl_cons, scanDedupStep_pair,
    if_pos ⟨he, Finset.mem_insert_self _ _⟩]
  rfl

theorem scanDedup_eq (kn : Finset Int) (b : List ScanEntry) :
    scanDedup kn b = b.foldl scanDedupStep (kn, []) := rfl

/-- Explicit formula for `process_scan_history` on a non-empty batch. -/
theorem process_eq (s : ScanState) (b : List ScanEntry) (hb : b ≠ []) :
    process_scan_history s b =
      (if 100 < (s.scan_history ++ (scanDedup s.known_timestamps b).2).length then
        { scan_history := sortScanHistory
            ((s.scan_history ++ (scanDedup s.known_timestamps b).2).drop
              ((s.scan_history ++ (scanDedup s.known_timestamps b).2).length - 100))
          known_timestamps :=
            ((s.scan_history ++ (scanDedup s.known_timestamps b).2).take
              ((s.scan_history ++ (scanDedup s.known_timestamps b).2).length - 100)).foldl
              (fun kn e => kn.erase e.timestamp) (scanDedup s.known_timestamps b).1
          last_processed_count := s.last_processed_count -
            ((s.scan_history ++ (scanDedup s.known_timestamps b).2).take
              ((s.scan_history ++ (scanDedup s.known_timestamps b).2).length - 100)).length }
      else
        { scan_history := sortScanHistory (s.scan_history ++ (scanDedup s.known_timestamps b).2)
          known_timestamps := (scanDedup s.known_timestamps b).1
          last_processed_count := s.last_processed_count }) := by
  unfold process_scan_history
  rw [if_neg hb]

theorem scanDedup_inv (b : List ScanEntry) (kn : Finset Int) (hist : List ScanEntry)
    (h1 : NoDupNZ hist) (h2 : ∀ e ∈ hist, e.timestamp ≠ 0 → e.timestamp ∈ kn) :
    NoDupNZ (hist ++ (scanDedup kn b).2)
    ∧ (∀ e ∈ hist ++ (scanDedup kn b).2,
        e.timestamp ≠ 0 → e.timestamp ∈ (scanDedup kn b).1) := by
  rw [scanDedup_eq]
  exact scanDedup_fold_inv b kn [] hist (by simpa using h1) (by simpa using h2)

theorem scanDedup_mem (b : List ScanEntry) (kn : Finset Int) :
    (∀ e ∈ (scanDedup kn b).2, e ∈ b)
    ∧ (∀ t ∈ (scanDedup kn b).1, t ∈ kn ∨ t ∈ tsOf (scanDedup kn b).2)
    ∧ kn ⊆ (scanDedup kn b).1 := by
  rw [scanDedup_eq]
  obtain ⟨l, hsnd, hmem, hfst, hsub⟩ := scanDedup_fold_structure b kn []
  rw [List.nil_append] at hsnd
  rw [hsnd]
  exact ⟨hmem, hfst, hsub⟩

theorem scanDedup_fresh (b : List ScanEntry) (kn : Finset Int)
    (hdist : b.Pairwise (fun a c => a.timestamp ≠ c.timestamp))
    (hfresh : ∀ e ∈ b, e.timestamp ∉ kn) :
    (scanDedup kn b).2 = b := by
  rw [scanDedup_eq]
  simpa using scanDedup_fold_fresh b kn [] hdist hfresh

theorem count_tsOf_sort (l : List ScanEntry) (t : Int) :
    (tsOf (sortScanHistory l)).count t = (tsOf l).count t :=
  ((sortScanHistory_perm l).map ScanEntry.timestamp).count_eq t

theorem mem_tsOf_sort (l : List ScanEntry) (t : Int) :
    t ∈ tsOf (sortScanHistory l) ↔ t ∈ tsOf l :=
  ((sortScanHistory_perm l).map ScanEntry.timestamp).mem_iff

/-- The coordinator scan-state invariant is preserved by every call of
`_process_scan_history`. -/
theorem scanInv_process (s : ScanState) (b : List ScanEntry) (h : ScanInv s) :
    ScanInv (process_scan_history s b) := by
  obtain ⟨hlen, hnd, hhk, hkh, hsort⟩ := h
  by_cases hb : b = []
  · rw [show process_scan_history s b = s from by unfold process_scan_history; rw [if_pos hb]]
    exact ⟨hlen, hnd, hhk, hkh, hsort⟩
  rw [process_eq s b hb]
  obtain ⟨hnd1, hhk1⟩ := scanDedup_inv b s.known_timestamps s.scan_history hnd hhk
  obtain ⟨hbmem, hfst, hknsub⟩ := scanDedup_mem b s.known_timestamps
  by_cases hcap : 100 < (s.scan_history ++ (scanDedup s.known_timestamps b).2).length
  · rw [if_pos hcap]
    have hsplit : (s.scan_history ++ (scanDedup s.known_timestamps b).2).take
          ((s.scan_history ++ (scanDedup s.known_timestamps b).2).length - 100)
        ++ (s.scan_history ++ (scanDedup s.known_timestamps b).2).drop
          ((s.scan_history ++ (scanDedup s.known_timestamps b).2).length - 100)
        = s.scan_history ++ (scanDedup s.known_timestamps b).2 :=
      List.take_append_drop _ _
    have hremne : ∀ e ∈ (s.scan_history ++ (scanDedup s.known_timestamps b).2).drop
          ((s.scan_history ++ (scanDedup s.known_timestamps b).2).length - 100),
        e.timestamp ≠ 0 →
        ∀ r ∈ (s.scan_history ++ (scanDedup s.known_timestamps b).2).take
          ((s.scan_history ++ (scanDedup s.known_timestamps b).2).length - 100),
        r.timestamp ≠ e.timestamp := by
      intro e he hez r hr hre
      have hc2 : 2 ≤ (tsOf (s.scan_history ++ (scanDedup s.known_timestamps b).2)).count
          e.timestamp := by
        rw [← hsplit, tsOf_append, List.count_append]
        have h1 : 0 < (tsOf ((s.scan_history ++ (scanDedup s.known_timestamps b).2).take
            ((s.scan_history ++ (scanDedup s.known_timestamps b).2).length - 100))).count
            e.timestamp :=
          List.count_pos_iff.mpr (mem_tsOf.mpr ⟨r, hr, hre⟩)
        have h2 : 0 < (tsOf ((s.scan_history ++ (scanDedup s.known_timestamps b).2).drop
            ((s.scan_history ++ (scanDedup s.known_timestamps b).2).length - 100))).count
            e.timestamp :=
          List.count_pos_iff.mpr (mem_tsOf.mpr ⟨e, he, rfl⟩)
        omega
      have := hnd1 e.timestamp hez
      omega
    refine ⟨?_, ?_, ?_, ?_, sortScanHistory_sorted _⟩
    · rw [sortScanHistory_length, List.length_drop]
      omega
    · intro t ht
      rw [count_tsOf_sort]
      have hsub : ((s.scan_history ++ (scanDedup s.known_timestamps b).2).drop
          ((s.scan_history ++ (scanDedup s.known_timestamps b).2).length - 100)).Sublist
          (s.scan_history ++ (scanDedup s.known_timestamps b).2) :=
        List.drop_sublist _ _
      calc (tsOf ((s.scan_history ++ (scanDedup s.known_timestamps b).2).drop
            ((s.scan_history ++ (scanDedup s.known_timestamps b).2).length - 100))).count t
          ≤ (tsOf (s.scan_history ++ (scanDedup s.known_timestamps b).2)).count t :=
            (hsub.map ScanEntry.timestamp).count_le t
        _ ≤ 1 := hnd1 t ht
    · intro e he hez
      have hkept : e ∈ (s.scan_history ++ (scanDedup s.known_timestamps b).2).drop
          ((s.scan_history ++ (scanDedup s.known_timestamps b).2).length - 100) :=
        ((sortScanHistory_perm _).mem_iff).mp he
      have hh1 : e ∈ s.scan_history ++ (scanDedup s.known_timestamps b).2 :=
        (List.drop_sublist _ _).subset hkept
      exact (mem_foldl_erase _ _ _).mpr
        ⟨hhk1 e hh1 hez, fun r hr => hremne e hkept hez r hr⟩
    · intro t ht
      obtain ⟨htd, hnr⟩ := (mem_foldl_erase _ _ _).mp ht
      have hth1 : t ∈ tsOf (s.scan_history ++ (scanDedup s.known_timestamps b).2) := by
        rcases hfst t htd with hts | hts
        · rw [tsOf_append]
          exact List.mem_append.mpr (Or.inl (hkh t hts))
        · rw [tsOf_append]
          exact List.mem_append.mpr (Or.inr hts)
      rw [← hsplit, tsOf_append] at hth1
      rcases List.mem_append.mp hth1 with hts | hts
      · obtain ⟨r, hr, hrt⟩ := mem_tsOf.mp hts
        exact absurd hrt (hnr r hr)
      · exact (mem_tsOf_sort _ _).mpr hts
  · rw [if_neg hcap]
    refine ⟨?_, ?_, ?_, ?_, sortScanHistory_sorted _⟩
    · rw [sortScanHistory_length]
      omega
    · intro t ht
      rw [count_tsOf_sort]
      exact hnd1 t ht
    · intro e he hez
      exact hhk1 e (((sortScanHistory_perm _).mem_iff).mp he) hez
    · intro t ht
      apply (mem_tsOf_sort _ _).mpr
      rcases hfst t ht with hts | hts
      · rw [tsOf_append]
        exact List.mem_append.mpr (Or.inl (hkh t hts))
      · rw [tsOf_append]
        exact List.mem_append.mpr (Or.inr hts)

/-- A sequence of coordinator update cycles feeding `_process_scan_history`
with successive scan batches, starting from a fresh coordinator. -/
def runScanBatches (batches : List (List ScanEntry)) : ScanState :=
  batches.foldl process_scan_history initScanState

theorem scanInv_init : ScanInv initScanState := by
  refine ⟨by simp [initScanState], ?_, ?_, ?_, ?_⟩
  · intro t ht; simp [initScanState, tsOf]
  · intro e he; simp [initScanState] at he
  · intro t ht; simp [initScanState] at ht
  · simp [initScanState]

theorem scanInv_run (batches : List (List ScanEntry)) : ScanInv (runScanBatches batches) := by
  unfold runScanBatches
  induction batches using List.reverseRecOn with
  | nil => exact scanInv_init
  | append_singleton rest b ih =>
    rw [List.foldl_append]
    exact scanInv_process _ b ih

/-- The dedup set grows by at most the timestamps of the ingested batch. -/
theorem process_known_subset (s : ScanState) (b : List ScanEntry) :
    ∀ t ∈ (process_scan_history s b).known_timestamps,
      t ∈ s.known_timestamps ∨ t ∈ tsOf b := by
  intro t ht
  by_cases hb : b = []
  · rw [show process_scan_history s b = s from by
      unfold process_scan_history; rw [if_pos hb]] at ht
    exact Or.inl ht
  obtain ⟨hbmem, hfst, hknsub⟩ := scanDedup_mem b s.known_timestamps
  rw [process_eq s b hb] at ht
  have htd : t ∈ (scanDedup s.known_timestamps b).1 := by
    by_cases hcap : 100 < (s.scan_history ++ (scanDedup s.known_timestamps b).2).length
    · rw [if_pos hcap] at ht
      exact ((mem_foldl_erase _ _ _).mp ht).1
    · rw [if_neg hcap] at ht
      exact ht
  rcases hfst t htd with hts | hts
  · exact Or.inl hts
  · obtain ⟨x, hx, hxt⟩ := mem_tsOf.mp hts
    exact Or.inr (mem_tsOf.mpr ⟨x, hbmem x hx, hxt⟩)

/-- Length of the history after one call on a batch of fresh,
pairwise-distinct timestamps: grow by the batch size, capped at 100. -/
theorem process_length_fresh (s : ScanState) (b : List ScanEntry) (h : ScanInv s)
    (hdist : b.Pairwise (fun a c => a.timestamp ≠ c.timestamp))
    (hfresh : ∀ e ∈ b, e.timestamp ∉ s.known_timestamps) :
    (process_scan_history s b).scan_history.length
      = min 100 (s.scan_history.length + b.length) := by
  by_cases hb : b = []
  · rw [show process_scan_history s b = s from by
      unfold process_scan_history; rw [if_pos hb], hb]
    have := h.1
    simp
    omega
  rw [process_eq s b hb, scanDedup_fresh b s.known_timestamps hdist hfresh]
  by_cases hcap : 100 < (s.scan_history ++ b).length
  · rw [if_pos hcap]
    rw [sortScanHistory_length, List.length_drop]
    rw [List.length_append] at hcap ⊢
    omega
  · rw [if_neg hcap]
    rw [sortScanHistory_length]
    rw [List.length_append] at hcap ⊢
    omega

/-- History length across a sequence of cycles ingesting globally fresh,
pairwise-distinct timestamps: total ingested size, capped at 100. -/
theorem run_length_fresh (batches : List (List ScanEntry)) :
    ∀ (s : ScanState), ScanInv s →
      (∀ e ∈ batches.flatten, e.timestamp ∉ s.known_timestamps) →
      batches.flatten.Pairwise (fun a c => a.timestamp ≠ c.timestamp) →
      (batches.foldl process_scan_history s).scan_history.length
        = min 100 (s.scan_history.length + batches.flatten.length) := by
  induction batches with
  | nil =>
    intro s h _ _
    have := h.1
    simp
    omega
  | cons b rest ih =>
    intro s hinv hfresh hdist
    rw [List.foldl_cons]
    have hjoin : (b :: rest).flatten = b ++ rest.flatten := rfl
    rw [hjoin] at hfresh hdist
    obtain ⟨hdb, hdrest, hcross⟩ := List.pairwise_append.mp hdist
    have hfb : ∀ e ∈ b, e.timestamp ∉ s.known_timestamps :=
      fun e hemem => hfresh e (List.mem_append.mpr (Or.inl hemem))
    have hlen1 := process_length_fresh s b hinv hdb hfb
    have hinv1 := scanInv_process s b hinv
    have hfresh1 : ∀ e ∈ rest.flatten,
        e.timestamp ∉ (process_scan_history s b).known_timestamps := by
      intro e hemem hk
      rcases process_known_subset s b e.timestamp hk with h1 | h1
      · exact hfresh e (List.mem_append.mpr (Or.inr hemem)) h1
      · obtain ⟨x, hx, hxt⟩ := mem_tsOf.mp h1
        exact (hcross x hx e hemem) hxt
    rw [ih (process_scan_history s b) hinv1 hfresh1 hdrest, hlen1, hjoin,
      List.length_append]
    omega

/-- Re-ingesting an entry whose timestamp is no longer in the history (for
example because it was evicted) appends it again. -/
theorem process_reingest (s : ScanState) (e : ScanEntry) (h : ScanInv s)
    (he : e.timestamp ∉ tsOf s.scan_history) :
    e ∈ (process_scan_history s [e]).scan_history := by
  obtain ⟨hlen, hnd, hhk, hkh, hsort⟩ := h
  have hkn : e.timestamp ∉ s.known_timestamps := fun hk => he (hkh _ hk)
  have hsnd : (scanDedup s.known_timestamps [e]).2 = [e] :=
    scanDedup_fresh [e] s.known_timestamps (by simp)
      (by intro x hx; rcases List.mem_singleton.mp hx with rfl; exact hkn)
  rw [process_eq s [e] (by simp), hsnd]
  by_cases hcap : 100 < (s.scan_history ++ [e]).length
  · rw [if_pos hcap]
    apply (sortScanHistory_perm _).mem_iff.mpr
    have h100 : s.scan_history.length = 100 := by
      rw [List.length_append] at hcap
      simp at hcap
      omega
    have hk1 : (s.scan_history ++ [e]).length - 100 = 1 := by
      rw [List.length_append, h100]
      simp
    rw [hk1, List.drop_append_of_le_length (by omega)]
    exact List.mem_append.mpr (Or.inr (by simp))
  · rw [if_neg hcap]
    exact (sortScanHistory_perm _).mem_iff.mpr (List.mem_append.mpr (Or.inr (by simp)))

/-- A skipped duplicate leaves every timestamp count of the history
unchanged. -/
theorem process_skip_counts (s : ScanState) (e : ScanEntry)
    (he : e.timestamp ≠ 0) (hk : e.timestamp ∈ s.known_timestamps)
    (hlen : s.scan_history.length ≤ 100) :
    ∀ t, (tsOf (process_scan_history s [e]).scan_history).count t
      = (tsOf s.scan_history).count t := by
  intro t
  rw [process_eq s [e] (by simp), scanDedup_single_known s.known_timestamps e he hk]
  simp only [List.append_nil]
  rw [if_neg (by omega : ¬ 100 < s.scan_history.length)]
  exact count_tsOf_sort _ _

/-- Ingesting a non-zero-timestamp entry once leaves exactly one entry with
that timestamp in the history, and the timestamp in the dedup set. -/
theorem process_single_one (s : ScanState) (e : ScanEntry) (h : ScanInv s)
    (he : e.timestamp ≠ 0) :
    (tsOf (process_scan_history s [e]).scan_history).count e.timestamp = 1
    ∧ e.timestamp ∈ (process_scan_history s [e]).known_timestamps := by
  obtain ⟨hlen, hnd, hhk, hkh, hsort⟩ := h
  by_cases hk : e.timestamp ∈ s.known_timestamps
  · constructor
    · rw [process_skip_counts s e he hk hlen]
      have h1 : 0 < (tsOf s.scan_history).count e.timestamp :=
        List.count_pos_iff.mpr (hkh _ hk)
      have h2 := hnd e.timestamp he
      omega
    · rw [process_eq s [e] (by simp), scanDedup_single_known _ e he hk]
      simp only [List.append_nil]
      rw [if_neg (by omega : ¬ 100 < s.scan_history.length)]
      exact hk
  · have hsnd := scanDedup_single_fresh s.known_timestamps e he hk
    have hcnt0 : (tsOf s.scan_history).count e.timestamp = 0 := by
      rw [List.count_eq_zero]
      intro hmem
      obtain ⟨x, hx, hxt⟩ := mem_tsOf.mp hmem
      exact hk (hxt ▸ hhk x hx (by rw [hxt]; exact he))
    rw [process_eq s [e] (by simp), hsnd]
    dsimp only
    by_cases hcap : 100 < (s.scan_history ++ [e]).length
    · rw [if_pos hcap]
      have h100 : s.scan_history.length = 100 := by
        rw [List.length_append] at hcap
        simp at hcap
        omega
      have hk1 : (s.scan_history ++ [e]).length - 100 = 1 := by
        rw [List.length_append, h100]
        simp
      constructor
      · rw [count_tsOf_sort, hk1, List.drop_append_of_le_length (by omega), tsOf_append,
          List.count_append]
        have hd0 : (tsOf (s.scan_history.drop 1)).count e.timestamp = 0 := by
          have hle := ((List.drop_sublist 1 s.scan_history).map ScanEntry.timestamp).count_le
            e.timestamp
          unfold tsOf at hcnt0 ⊢
          omega
        rw [hd0]
        simp [tsOf]
      · rw [hk1, List.take_append_of_le_length (by omega)]
        apply (mem_foldl_erase _ _ _).mpr
        refine ⟨Finset.mem_insert_self _ _, ?_⟩
        intro r hr hre
        have : 0 < (tsOf s.scan_history).count e.timestamp :=
          List.count_pos_iff.mpr
            (mem_tsOf.mpr ⟨r, (List.take_sublist 1 s.scan_history).subset hr, hre⟩)
        omega
    · rw [if_neg hcap]
      constructor
      · rw [count_tsOf_sort, tsOf_append, List.count_append, hcnt0]
        simp [tsOf]
      · exact Finset.mem_insert_self _ _

/-- Ingesting the same non-zero-timestamp entry twice across two batches
leaves exactly one copy in the history. -/
theorem process_double_one (s : ScanState) (e : ScanEntry) (h : ScanInv s)
    (he : e.timestamp ≠ 0) :
    (tsOf (process_scan_history (process_scan_history s [e]) [e]).scan_history).count
      e.timestamp = 1 := by
  have h1 := process_single_one s e h he
  have hinv1 := scanInv_process s [e] h
  rw [process_skip_counts (process_scan_history s [e]) e he h1.2 hinv1.1]
  exact h1.1

/-- A batch with a duplicated non-zero-timestamp entry is processed exactly
like the singleton batch: the duplicate is discarded on arrival. -/
theorem process_pair_eq_single (s : ScanState) (e : ScanEntry) (he : e.timestamp ≠ 0) :
    process_scan_history s [e, e] = process_scan_history s [e] := by
  by_cases hk : e.timestamp ∈ s.known_timestamps
  · rw [process_eq s [e, e] (by simp), process_eq s [e] (by simp),
      scanDedup_pair_known _ e he hk, scanDedup_single_known _ e he hk]
  · rw [process_eq s [e, e] (by simp), process_eq s [e] (by simp),
      scanDedup_pair_fresh _ e he hk, scanDedup_single_fresh _ e he hk]

/-- Batch of 100 entries with timestamps 1..100, arriving in chronological
order. -/
def manyBatch : List ScanEntry := (List.range 100).map (fun i => ⟨(i : Int) + 1, 0⟩)

/-- State after ingesting timestamps 1..100 in one cycle and then timestamp
101 in the next cycle: 101 pairwise-distinct ingested timestamps. -/
def evictedState : ScanState :=
  process_scan_history (process_scan_history initScanState manyBatch) [⟨101, 0⟩]

set_option maxRecDepth 8000 in
/-- C2, counterexample.  After ingesting the 101 distinct timestamps 1..100
then 101, the 100 most recent timestamps are 2..101 — but the history is
missing timestamp 100 and still holds timestamp 1: the eviction trims the
front of the pre-sort list, and because the previous cycle left the history
sorted most-recent-first, it evicts the most recent old entry instead of the
oldest one. -/
theorem c2_counterexample :
    (100 : Int) ∉ tsOf evictedState.scan_history
    ∧ (1 : Int) ∈ tsOf evictedState.scan_history
    ∧ evictedState.scan_history.length = 100 := by decide

/-- C2, amended.  After any sequence of ingest calls in which more than 100
entries with pairwise-distinct integer timestamps arrived, the history holds
exactly 100 entries, sorted descending by timestamp, and every evicted
timestamp is removed from the dedup set, so re-ingesting an entry whose
timestamp is no longer held succeeds (it is appended again).  The retained
100 are however not in general the 100 with the most recent timestamps (see
the counterexample: eviction trims the head of the pre-sort list, which the
previous cycle left sorted most-recent-first). -/
theorem c2_capacity_sorted_reingest (batches : List (List ScanEntry))
    (hdist : batches.flatten.Pairwise (fun a c => a.timestamp ≠ c.timestamp))
    (htotal : 100 < batches.flatten.length) :
    (runScanBatches batches).scan_history.length = 100
    ∧ List.Sorted tsGE (runScanBatches batches).scan_history
    ∧ ∀ e : ScanEntry, e.timestamp ∉ tsOf (runScanBatches batches).scan_history →
        e ∈ (process_scan_history (runScanBatches batches) [e]).scan_history := by
  have hinv := scanInv_run batches
  refine ⟨?_, hinv.2.2.2.2, fun e he => process_reingest _ e hinv he⟩
  have hrl := run_length_fresh batches initScanState scanInv_init
    (by intro e he hk; simp [initScanState] at hk) hdist
  unfold runScanBatches
  rw [hrl]
  have h0 : initScanState.scan_history.length = 0 := rfl
  rw [h0]
  omega

set_option maxRecDepth 8000 in
/-- C2, witness for the amended claim: ingesting timestamps 1..100 then 101
leaves a history of exactly 100 entries. -/
theorem c2_capacity_witness :
    (runScanBatches [manyBatch, [⟨101, 0⟩]]).scan_history.length = 100 :=
  (c2_capacity_sorted_reingest [manyBatch, [⟨101, 0⟩]] (by decide) (by decide)).1

/-- C6, counterexample.  An entry whose integer timestamp is `0` defeats the
dedup guard (`if timestamp_int and timestamp_int in self._known_timestamps`
is false for `0`): ingesting it twice — across two batches or within one —
leaves two history entries with the same integer timestamp. -/
theorem c6_counterexample :
    (process_scan_history (process_scan_history initScanState [⟨0, 0⟩]) [⟨0, 0⟩]).scan_history.length = 2
    ∧ tsOf (process_scan_history (process_scan_history initScanState [⟨0, 0⟩]) [⟨0, 0⟩]).scan_history = [0, 0]
    ∧ (process_scan_history initScanState [⟨0, 0⟩, ⟨0, 0⟩]).scan_history.length = 2 := by
  decide

/-- C6, amended.  For entries whose resolved integer timestamp is non-zero,
ingest is idempotent under timestamp collision: from any reachable state, no
two history entries share the same non-zero timestamp, and ingesting the same
entry twice — across two batches or within one batch — leaves exactly one
copy in the history.  Entries whose timestamp resolves to `0` bypass the
dedup set (a Python truthiness guard) and can duplicate. -/
theorem c6_dedup_nonzero (batches : List (List ScanEntry)) (e : ScanEntry)
    (he : e.timestamp ≠ 0) :
    NoDupNZ (runScanBatches batches).scan_history
    ∧ (tsOf (runScanBatches (batches ++ [[e], [e]])).scan_history).count e.timestamp = 1
    ∧ (tsOf (runScanBatches (batches ++ [[e, e]])).scan_history).count e.timestamp = 1 := by
  have hinv := scanInv_run batches
  refine ⟨hinv.2.1, ?_, ?_⟩
  · have hrun : runScanBatches (batches ++ [[e], [e]])
        = process_scan_history (process_scan_history (runScanBatches batches) [e]) [e] := by
      unfold runScanBatches
      rw [List.foldl_append]
      rfl
    rw [hrun]
    exact process_double_one _ e hinv he
  · have hrun : runScanBatches (batches ++ [[e, e]])
        = process_scan_history (runScanBatches batches) [e, e] := by
      unfold runScanBatches
      rw [List.foldl_append]
      rfl
    rw [hrun, process_pair_eq_single _ e he]
    exact (process_single_one _ e hinv he).1

/-- C6, witness for the amended claim at timestamp 5 from a fresh state. -/
theorem c6_dedup_nonzero_witness :
    NoDupNZ (runScanBatches []).scan_history
    ∧ (tsOf (runScanBatches ([] ++ [[⟨5, 0⟩], [⟨5, 0⟩]])).scan_history).count 5 = 1
    ∧ (tsOf (runScanBatches ([] ++ [[⟨5, 0⟩, ⟨5, 0⟩]])).scan_history).count 5 = 1 :=
  c6_dedup_nonzero [] ⟨5, 0⟩ (by decide)

/-- C8, witness: a device answering every request with a 200-status HTML page
while credentials are cached makes the call log in exactly once. -/
theorem c8_retry_bounds_witness :
    (instantActions (fun _ => ⟨200, false, .null⟩) true .data 0).count .loginPost = 1 :=
  (c8_retry_bounds (fun _ => ⟨200, false, .null⟩) true .data 0).2.2.2 rfl rfl rfl
